import Mathlib

/-!
Verification of the sisifo task-queue orchestrator.

Shallow embedding of the core data model and operations:
  * `orchestration/core/models.py`   — `TaskRecord`, `is_valid_transition`
  * `orchestration/store/repository.py` — `QueueStore` operations on the
    record list (`add_record`, `update_record`, `claim_first_todo`,
    `claim_todo_by_id`), with the JSONL file contents modelled as the list
    of records and validation failures as explicit errors
  * `orchestration/core/naming.py`   — branch / container name derivation
  * `orchestration/task_files.py`    — id derivation from a filename
  * `orchestration/adapters/opencode.py` — stderr failure heuristic and
    phase-error construction
  * `orchestration/runtime_docker.py` — container launch command builder
  * `orchestration/adapters/review.py` — review launcher validation
  * `orchestration/cli/cmd_transitions.py` — `cmd_retry`
  * `orchestration/cli/cmd_cleanup.py` — the record-clearing patch

Machine-level effects (file locks, subprocesses, the actual filesystem)
are abstracted: the record file is the list of records it contains, and
filesystem existence checks are a `String → Bool` parameter.
-/

/-! ## Generic string helpers (character-list level, all executable) -/

/-- ASCII lowercase of a string (mirrors `str.lower` on ASCII input). -/
def lowerStr (s : String) : String := String.mk (s.data.map Char.toLower)

/-- ASCII uppercase of a string (mirrors `str.upper` on ASCII input). -/
def upperStr (s : String) : String := String.mk (s.data.map Char.toUpper)

/-- Drop leading characters satisfying `p`. -/
def dropWhileChar (p : Char → Bool) : List Char → List Char
  | [] => []
  | c :: cs => if p c then dropWhileChar p cs else c :: cs

/-- Strip characters satisfying `p` from both ends (mirrors `str.strip`). -/
def stripChars (p : Char → Bool) (s : String) : String :=
  String.mk ((dropWhileChar p ((dropWhileChar p s.data.reverse).reverse.reverse)).reverse)

/-- Whitespace strip (mirrors `str.strip()` for ASCII whitespace). -/
def stripWs (s : String) : String := stripChars Char.isWhitespace s

/-- Whether `sub` occurs as a prefix (second argument against the first). -/
def isPre : List Char → List Char → Bool
  | _, [] => true
  | [], _ :: _ => false
  | c :: cs, d :: ds => c == d && isPre cs ds

/-- Whether `sub` occurs as a contiguous substring of `l` (mirrors Python `in`). -/
def containsSubList (l sub : List Char) : Bool :=
  match l with
  | [] => isPre [] sub
  | _ :: cs => isPre l sub || containsSubList cs sub

/-- Whether `sub` occurs as a contiguous substring of `s`. -/
def containsSub (s sub : String) : Bool := containsSubList s.data sub.data

/-- Worker for `collapseRuns`; `inRun` records that the previous character
was part of a run already replaced by a hyphen. -/
def collapseRunsAux (keep : Char → Bool) : Bool → List Char → List Char
  | _, [] => []
  | inRun, c :: cs =>
    if keep c then c :: collapseRunsAux keep false cs
    else if inRun then collapseRunsAux keep true cs
    else '-' :: collapseRunsAux keep true cs

/-- Collapse maximal runs of characters not satisfying `keep` into a single
hyphen (mirrors `re.sub(r"[^c]+", "-", s)` for a negated character class). -/
def collapseRuns (keep : Char → Bool) (l : List Char) : List Char :=
  collapseRunsAux keep false l

/-- Last component of a path string (text after the final `/`). -/
def lastComponent (s : String) : String :=
  String.mk ((s.data.reverse.takeWhile (fun c => c ≠ '/')).reverse)

/-- Index (from the start) of the last `'.'` in `l`, if any. -/
def lastDotIdx (l : List Char) : Option Nat :=
  match l.reverse.findIdx? (fun c => c == '.') with
  | none => none
  | some j => some (l.length - 1 - j)

/-- Stem of a filename, mirroring `pathlib.PurePath.stem`: the final path
component with its suffix removed; the suffix is `name[i:]` for the last
dot index `i` only when `0 < i < len(name) - 1`. -/
def pathStem (p : String) : String :=
  let name := lastComponent p
  match lastDotIdx name.data with
  | none => name
  | some i =>
    if 0 < i ∧ i < name.data.length - 1 then String.mk (name.data.take i) else name

/-! ## Naming (`orchestration/core/naming.py`, `orchestration/task_files.py`) -/

/-- Source `derive_branch_name`: lowercase the task id, replace spaces and
underscores with hyphens, and prefix with `task/`. -/
def derive_branch_name (task_id : String) : String :=
  let safe_id := String.mk ((lowerStr task_id).data.map
    (fun c => if c = ' ' ∨ c = '_' then '-' else c))
  "task/" ++ safe_id

/-- Characters kept verbatim by `derive_container_name`'s sanitiser
(`[^a-zA-Z0-9_.-]+` is replaced by `-`). -/
def containerSafeChar (c : Char) : Bool :=
  c.isAlpha || c.isDigit || c == '_' || c == '.' || c == '-'

/-- Source `compact_timestamp`: keep the digits of an ISO timestamp; first 14 when
there are at least 14, all of them when fewer, `"ts"` when none. -/
def compact_timestamp (value : String) : String :=
  let digits := value.data.filter Char.isDigit
  if digits.length ≥ 14 then String.mk (digits.take 14)
  else if digits.length > 0 then String.mk digits
  else "ts"

/-- Source `derive_container_name`: sanitise the task id, strip hyphens, fall back
to `"task"`, and append the compacted creation timestamp. -/
def derive_container_name (task_id : String) (created_at : String) : String :=
  let safe0 := stripChars (fun c => c == '-') (String.mk (collapseRuns containerSafeChar task_id.data))
  let safe := if safe0 = "" then "task" else safe0
  "task-" ++ safe ++ "-" ++ compact_timestamp created_at

/-- Source `normalize_task_id_from_filename`: stem of the filename, whitespace
stripped, non-alphanumeric runs collapsed to `-`, hyphens stripped; error
when empty; prefix `T-` unless the uppercased form already starts with it;
finally uppercase. -/
def normalize_task_id_from_filename (source_path : String) : Except String String :=
  let stem := stripWs (pathStem source_path)
  let normalized := stripChars (fun c => c == '-') (String.mk (collapseRuns Char.isAlphanum stem.data))
  if normalized = "" then
    .error ("Cannot derive task ID from filename: " ++ lastComponent source_path)
  else
    let normalized' :=
      if isPre (upperStr normalized).data "T-".data then normalized
      else "T-" ++ normalized
    .ok (upperStr normalized')

/-- C5: the three naming functions return the spec's literal values:
`normalize_task_id_from_filename "hello world task.md" = "T-HELLO-WORLD-TASK"`,
`derive_branch_name "T-001" = "task/t-001"`, and
`derive_container_name "T 001/ABC" "2026-02-26T17:19:40.010123+00:00"
 = "task-T-001-ABC-20260226171940"`. -/
theorem naming_literal_values :
    normalize_task_id_from_filename "hello world task.md" = .ok "T-HELLO-WORLD-TASK" ∧
    derive_branch_name "T-001" = "task/t-001" ∧
    derive_container_name "T 001/ABC" "2026-02-26T17:19:40.010123+00:00"
      = "task-T-001-ABC-20260226171940" := by
  exact ⟨rfl, rfl, rfl⟩

/-! ## Task record (`orchestration/core/models.py`) -/

/-- Source `TaskRecord`: the durable schema of one task. Field names and order
mirror the dataclass; `port` and `attempt` are integers. -/
structure TaskRecord where
  id : String
  repo : String
  base : String
  task_file : String
  status : String
  branch : String
  worktree_path : String
  container : String
  port : Int
  session_id : String
  attempt : Int
  error_file : String
  created_at : String
  updated_at : String
  opencode_attempt_dir : String := ""
  opencode_config_dir : String := ""
  opencode_data_dir : String := ""
deriving DecidableEq, Repr, Inhabited

/-- Source `TaskRecord.VALID_STATUSES`. -/
def VALID_STATUSES : List String :=
  ["todo", "planning", "building", "review", "done", "failed", "cancelled"]

/-- Source `TaskRecord.validate` as a boolean: the status is a legal value. -/
def statusOk (r : TaskRecord) : Bool := VALID_STATUSES.contains r.status

/-- The transition map of `TaskRecord.is_valid_transition`: legal target
statuses for each source status, empty for unknown sources. -/
def transitionsOf (from_status : String) : List String :=
  if from_status = "todo" then ["planning", "cancelled"]
  else if from_status = "planning" then ["building", "failed", "cancelled"]
  else if from_status = "building" then ["review", "failed"]
  else if from_status = "review" then ["done", "cancelled"]
  else if from_status = "failed" then ["todo", "cancelled"]
  else if from_status = "done" then []
  else if from_status = "cancelled" then []
  else []

/-- Source `TaskRecord.is_valid_transition`. -/
def is_valid_transition (from_status to_status : String) : Bool :=
  (transitionsOf from_status).contains to_status

/-- The legal-transition table exactly as the spec enumerates it. -/
def legalPairs : List (String × String) :=
  [("todo", "planning"), ("todo", "cancelled"),
   ("planning", "building"), ("planning", "failed"), ("planning", "cancelled"),
   ("building", "review"), ("building", "failed"),
   ("review", "done"), ("review", "cancelled"),
   ("failed", "todo"), ("failed", "cancelled")]

/-! ## Record store (`orchestration/store/repository.py`)

The JSONL file contents are modelled as the list of records; a raised
`ValueError` is an explicit `StoreError`. File locking serialises the
operations and is not itself modelled. -/

/-- The `ValueError`s the store can raise. -/
inductive StoreError where
  | invalidStatus (status : String)
  | duplicateId (id : String)
  | notFound (id : String)
  | invalidTransition (fromStatus toStatus : String)
deriving DecidableEq, Repr

/-- A partial update (`updates: Dict[str, Any]`) restricted to the known
schema: `none` means the key is absent from the patch. -/
structure RecordPatch where
  id : Option String := none
  repo : Option String := none
  base : Option String := none
  task_file : Option String := none
  status : Option String := none
  branch : Option String := none
  worktree_path : Option String := none
  container : Option String := none
  port : Option Int := none
  session_id : Option String := none
  attempt : Option Int := none
  error_file : Option String := none
  created_at : Option String := none
  updated_at : Option String := none
  opencode_attempt_dir : Option String := none
  opencode_config_dir : Option String := none
  opencode_data_dir : Option String := none
deriving DecidableEq, Repr, Inhabited

/-- Python `record_dict.update(updates)`: patched fields replace current ones. -/
def applyPatch (r : TaskRecord) (p : RecordPatch) : TaskRecord where
  id := p.id.getD r.id
  repo := p.repo.getD r.repo
  base := p.base.getD r.base
  task_file := p.task_file.getD r.task_file
  status := p.status.getD r.status
  branch := p.branch.getD r.branch
  worktree_path := p.worktree_path.getD r.worktree_path
  container := p.container.getD r.container
  port := p.port.getD r.port
  session_id := p.session_id.getD r.session_id
  attempt := p.attempt.getD r.attempt
  error_file := p.error_file.getD r.error_file
  created_at := p.created_at.getD r.created_at
  updated_at := p.updated_at.getD r.updated_at
  opencode_attempt_dir := p.opencode_attempt_dir.getD r.opencode_attempt_dir
  opencode_config_dir := p.opencode_config_dir.getD r.opencode_config_dir
  opencode_data_dir := p.opencode_data_dir.getD r.opencode_data_dir

/-- Source `_write_all_records`: every record is validated (in file order) before
the atomic replace; on success the file holds exactly `rs`. -/
def write_all_records (rs : List TaskRecord) : Except StoreError (List TaskRecord) :=
  match rs.find? (fun r => !statusOk r) with
  | some r => .error (.invalidStatus r.status)
  | none => .ok rs

/-- Source `add_record`: validate, reject duplicate ids, append, write. -/
def add_record (rs : List TaskRecord) (record : TaskRecord) :
    Except StoreError (List TaskRecord) :=
  if !statusOk record then .error (.invalidStatus record.status)
  else if rs.any (fun r => r.id = record.id) then .error (.duplicateId record.id)
  else write_all_records (rs ++ [record])

/-- Split the record list at the first record whose id matches (the scan of
`update_record`, `get_record` and `claim_todo_by_id`). -/
def splitById (record_id : String) : List TaskRecord →
    Option (List TaskRecord × TaskRecord × List TaskRecord)
  | [] => none
  | r :: rest =>
    if r.id = record_id then some ([], r, rest)
    else (splitById record_id rest).map (fun pxs => (r :: pxs.1, pxs.2.1, pxs.2.2))

/-- Split the record list at the first record in `todo`
(the scan of `claim_first_todo`). -/
def splitByFirstTodo : List TaskRecord →
    Option (List TaskRecord × TaskRecord × List TaskRecord)
  | [] => none
  | r :: rest =>
    if r.status = "todo" then some ([], r, rest)
    else (splitByFirstTodo rest).map (fun pxs => (r :: pxs.1, pxs.2.1, pxs.2.2))

/-- Source `get_record`: first record with the given id, if any. -/
def get_record (rs : List TaskRecord) (record_id : String) : Option TaskRecord :=
  (splitById record_id rs).map (fun pxs => pxs.2.1)

/-- Source `update_record`: find the record, merge the patch, enforce transition
legality when the patch changes the status, refresh `updated_at`, validate,
and write the whole set. Returns the new file contents and the updated
record; any error leaves the file contents unchanged. -/
def update_record (rs : List TaskRecord) (record_id : String) (updates : RecordPatch)
    (now : String) : Except StoreError (List TaskRecord × TaskRecord) :=
  match splitById record_id rs with
  | none => .error (.notFound record_id)
  | some (pre, r, suf) =>
    let merged := applyPatch r updates
    match updates.status with
    | some new_status =>
      if new_status ≠ r.status ∧ ¬ is_valid_transition r.status new_status then
        .error (.invalidTransition r.status new_status)
      else
        let updated := { merged with updated_at := now }
        if !statusOk updated then .error (.invalidStatus updated.status)
        else (write_all_records (pre ++ updated :: suf)).map (fun rs' => (rs', updated))
    | none =>
      let updated := { merged with updated_at := now }
      if !statusOk updated then .error (.invalidStatus updated.status)
      else (write_all_records (pre ++ updated :: suf)).map (fun rs' => (rs', updated))

/-- The claimed form of a `todo` record: status `planning`, fresh
`updated_at` (shared by both claim operations). -/
def claimedRecord (r : TaskRecord) (now : String) : TaskRecord :=
  { r with status := "planning", updated_at := now }

/-- Source `claim_first_todo`: transition the first `todo` record (in file order)
to `planning`; `none` when no record is in `todo`. -/
def claim_first_todo (rs : List TaskRecord) (now : String) :
    Except StoreError (Option (List TaskRecord × TaskRecord)) :=
  match splitByFirstTodo rs with
  | none => .ok none
  | some (pre, r, suf) =>
    let updated := claimedRecord r now
    if !statusOk updated then .error (.invalidStatus updated.status)
    else (write_all_records (pre ++ updated :: suf)).map (fun rs' => some (rs', updated))

/-- Source `claim_todo_by_id`: claim a specific record; `none` when it is missing
or not in `todo`. -/
def claim_todo_by_id (rs : List TaskRecord) (record_id : String) (now : String) :
    Except StoreError (Option (List TaskRecord × TaskRecord)) :=
  match splitById record_id rs with
  | none => .ok none
  | some (pre, r, suf) =>
    if r.status ≠ "todo" then .ok none
    else
      let updated := claimedRecord r now
      if !statusOk updated then .error (.invalidStatus updated.status)
      else (write_all_records (pre ++ updated :: suf)).map (fun rs' => some (rs', updated))

/-! ## Store lemmas -/

theorem write_all_records_ok (rs : List TaskRecord) (h : ∀ r ∈ rs, statusOk r) :
    write_all_records rs = .ok rs := by
  unfold write_all_records
  have : rs.find? (fun r => !statusOk r) = none := by
    rw [List.find?_eq_none]
    intro r hr
    simp [h r hr]
  rw [this]

theorem all_statusOk_replace (pre suf : List TaskRecord) (r' : TaskRecord)
    (hpre : ∀ x ∈ pre, statusOk x) (hsuf : ∀ x ∈ suf, statusOk x)
    (hr : statusOk r') : ∀ x ∈ pre ++ r' :: suf, statusOk x := by
  intro x hx
  rcases List.mem_append.mp hx with hx | hx
  · exact hpre x hx
  · rcases List.mem_cons.mp hx with hx | hx
    · rw [hx]; exact hr
    · exact hsuf x hx

theorem splitById_cons_eq (record_id : String) (r : TaskRecord) (rest : List TaskRecord)
    (h : r.id = record_id) : splitById record_id (r :: rest) = some ([], r, rest) := by
  simp [splitById, h]

theorem splitById_append (record_id : String) (pre : List TaskRecord) (r : TaskRecord)
    (suf : List TaskRecord) (hpre : ∀ x ∈ pre, x.id ≠ record_id) (h : r.id = record_id) :
    splitById record_id (pre ++ r :: suf) = some (pre, r, suf) := by
  induction pre with
  | nil => simp [splitById, h]
  | cons x xs ih =>
    have hx : x.id ≠ record_id := hpre x (by simp)
    have ih' := ih (fun y hy => hpre y (by simp [hy]))
    simp [splitById, hx, ih']

theorem splitById_none (record_id : String) (rs : List TaskRecord)
    (h : ∀ r ∈ rs, r.id ≠ record_id) : splitById record_id rs = none := by
  induction rs with
  | nil => rfl
  | cons x xs ih =>
    have hx : x.id ≠ record_id := h x (by simp)
    have ih' := ih (fun y hy => h y (by simp [hy]))
    simp [splitById, hx, ih']

theorem splitByFirstTodo_append (pre : List TaskRecord) (r : TaskRecord)
    (suf : List TaskRecord) (hpre : ∀ x ∈ pre, x.status ≠ "todo")
    (h : r.status = "todo") :
    splitByFirstTodo (pre ++ r :: suf) = some (pre, r, suf) := by
  induction pre with
  | nil => simp [splitByFirstTodo, h]
  | cons x xs ih =>
    have hx : x.status ≠ "todo" := hpre x (by simp)
    have ih' := ih (fun y hy => hpre y (by simp [hy]))
    simp [splitByFirstTodo, hx, ih']

theorem splitByFirstTodo_none (rs : List TaskRecord)
    (h : ∀ r ∈ rs, r.status ≠ "todo") : splitByFirstTodo rs = none := by
  induction rs with
  | nil => rfl
  | cons x xs ih =>
    have hx : x.status ≠ "todo" := h x (by simp)
    have ih' := ih (fun y hy => h y (by simp [hy]))
    simp [splitByFirstTodo, hx, ih']

/-- The code's `is_valid_transition` agrees exactly with the spec's
legal-transition table. -/
theorem is_valid_transition_iff_mem (s t : String) :
    is_valid_transition s t = true ↔ (s, t) ∈ legalPairs := by
  unfold is_valid_transition transitionsOf legalPairs
  split_ifs with h1 h2 h3 h4 h5 h6 h7 <;> subst_vars <;>
    simp_all [List.contains, Prod.ext_iff]

/-- Every target in the legal-transition table is a valid status. -/
theorem legal_target_valid (s t : String) (h : (s, t) ∈ legalPairs) :
    VALID_STATUSES.contains t = true := by
  fin_cases h <;> decide

/-- The record-file contents after an `update_record` call: the new record
set on success, the unchanged set when the call raises. -/
def fileAfterUpdate (rs : List TaskRecord) (record_id : String) (updates : RecordPatch)
    (now : String) : List TaskRecord :=
  match update_record rs record_id updates now with
  | .ok x => x.1
  | .error _ => rs

theorem update_record_ok_of_valid
    (pre : List TaskRecord) (r : TaskRecord) (suf : List TaskRecord)
    (record_id : String) (p : RecordPatch) (now t : String)
    (hpre : ∀ x ∈ pre, x.id ≠ record_id) (hid : r.id = record_id)
    (hvalid : ∀ x ∈ pre ++ r :: suf, statusOk x)
    (hs : p.status = some t)
    (hvt : is_valid_transition r.status t = true)
    (htv : VALID_STATUSES.contains t = true) :
    update_record (pre ++ r :: suf) record_id p now
      = .ok (pre ++ { applyPatch r p with updated_at := now } :: suf,
             { applyPatch r p with updated_at := now }) := by
  have hsplit := splitById_append record_id pre r suf hpre hid
  have hst : (applyPatch r p).status = t := by
    simp [applyPatch, hs]
  have hok : statusOk { applyPatch r p with updated_at := now } = true := by
    show VALID_STATUSES.contains (applyPatch r p).status = true
    rw [hst]; exact htv
  have hall : ∀ x ∈ pre ++ { applyPatch r p with updated_at := now } :: suf, statusOk x :=
    all_statusOk_replace pre suf _ (fun x hx => hvalid x (by simp [hx]))
      (fun x hx => hvalid x (by simp [hx])) hok
  have hw := write_all_records_ok _ hall
  simp only [update_record, hsplit, hs]
  rw [if_neg (by simp [hvt])]
  simp only [hok, Bool.not_true, Bool.false_eq_true, if_false, hw, Except.map]

theorem update_record_invalid_transition_error
    (pre : List TaskRecord) (r : TaskRecord) (suf : List TaskRecord)
    (record_id : String) (p : RecordPatch) (now t : String)
    (hpre : ∀ x ∈ pre, x.id ≠ record_id) (hid : r.id = record_id)
    (hs : p.status = some t) (hne : t ≠ r.status)
    (hvt : is_valid_transition r.status t = false) :
    update_record (pre ++ r :: suf) record_id p now
      = .error (.invalidTransition r.status t) := by
  have hsplit := splitById_append record_id pre r suf hpre hid
  simp only [update_record, hsplit, hs]
  rw [if_pos ⟨hne, by simp [hvt]⟩]

/-- C1: for a stored record and a patch whose target status differs from the
current one, `update_record` succeeds exactly when the pair is in the
legal-transition table (todo→planning|cancelled, planning→building|failed|
cancelled, building→review|failed, review→done|cancelled,
failed→todo|cancelled, done and cancelled terminal — the `legalPairs`
list); every other distinct pair fails with the invalid-transition error
and leaves the record file untouched. -/
theorem update_status_transition_legality
    (pre : List TaskRecord) (r : TaskRecord) (suf : List TaskRecord)
    (record_id : String) (p : RecordPatch) (now t : String)
    (hpre : ∀ x ∈ pre, x.id ≠ record_id) (hid : r.id = record_id)
    (hvalid : ∀ x ∈ pre ++ r :: suf, statusOk x)
    (hs : p.status = some t) (hne : t ≠ r.status) :
    ((r.status, t) ∈ legalPairs →
      update_record (pre ++ r :: suf) record_id p now
        = .ok (pre ++ { applyPatch r p with updated_at := now } :: suf,
               { applyPatch r p with updated_at := now })) ∧
    ((r.status, t) ∉ legalPairs →
      update_record (pre ++ r :: suf) record_id p now
        = .error (.invalidTransition r.status t) ∧
      fileAfterUpdate (pre ++ r :: suf) record_id p now = pre ++ r :: suf) := by
  constructor
  · intro hlegal
    exact update_record_ok_of_valid pre r suf record_id p now t hpre hid hvalid hs
      ((is_valid_transition_iff_mem _ _).mpr hlegal) (legal_target_valid _ _ hlegal)
  · intro hillegal
    have hvt : is_valid_transition r.status t = false := by
      rcases h : is_valid_transition r.status t with _ | _
      · rfl
      · exact absurd ((is_valid_transition_iff_mem _ _).mp h) hillegal
    have herr := update_record_invalid_transition_error pre r suf record_id p now t
      hpre hid hs hne hvt
    exact ⟨herr, by simp only [fileAfterUpdate, herr]⟩

/-- A concrete record in `todo` used by the witnesses. -/
def sampleTodo : TaskRecord where
  id := "T-001"
  repo := "/repo"
  base := "main"
  task_file := "queue/tasks/T-001.md"
  status := "todo"
  branch := "task/t-001"
  worktree_path := "/worktrees/repo/T-001"
  container := ""
  port := 0
  session_id := ""
  attempt := 0
  error_file := ""
  created_at := "2026-01-01T00:00:00"
  updated_at := "2026-01-01T00:00:00"

theorem update_status_transition_legality_witness :
    update_record [sampleTodo] "T-001" { status := some "planning" } "2026-01-02T00:00:00"
      = .ok ([{ sampleTodo with status := "planning", updated_at := "2026-01-02T00:00:00" }],
             { sampleTodo with status := "planning", updated_at := "2026-01-02T00:00:00" }) := by
  have h := (update_status_transition_legality [] sampleTodo [] "T-001"
    { status := some "planning" } "2026-01-02T00:00:00" "planning"
    (by simp) rfl (by decide) rfl (by decide)).1 (by decide)
  exact h.trans rfl

theorem statusOk_claimedRecord (r : TaskRecord) (now : String) :
    statusOk (claimedRecord r now) = true := rfl

/-- C2: `claim_first_todo` transitions exactly the first record in file
order whose status is `todo` to `planning` and returns it, and returns
`none` when no record is in `todo`; `claim_todo_by_id` does the same for
the record with the given id, returning `none` when that record is missing
or its status is not `todo`. -/
theorem claim_first_todo_and_by_id_spec
    (rs : List TaskRecord) (record_id now : String)
    (hvalid : ∀ x ∈ rs, statusOk x) :
    ((∀ x ∈ rs, x.status ≠ "todo") → claim_first_todo rs now = .ok none) ∧
    (∀ pre r suf, rs = pre ++ r :: suf → (∀ x ∈ pre, x.status ≠ "todo") →
      r.status = "todo" →
      claim_first_todo rs now
        = .ok (some (pre ++ claimedRecord r now :: suf, claimedRecord r now))) ∧
    ((∀ x ∈ rs, x.id ≠ record_id) → claim_todo_by_id rs record_id now = .ok none) ∧
    (∀ pre r suf, rs = pre ++ r :: suf → (∀ x ∈ pre, x.id ≠ record_id) →
      r.id = record_id → r.status ≠ "todo" →
      claim_todo_by_id rs record_id now = .ok none) ∧
    (∀ pre r suf, rs = pre ++ r :: suf → (∀ x ∈ pre, x.id ≠ record_id) →
      r.id = record_id → r.status = "todo" →
      claim_todo_by_id rs record_id now
        = .ok (some (pre ++ claimedRecord r now :: suf, claimedRecord r now))) := by
  refine ⟨?_, ?_, ?_, ?_, ?_⟩
  · intro hnone
    simp only [claim_first_todo, splitByFirstTodo_none rs hnone]
  · intro pre r suf hrs hpre hr
    subst hrs
    have hw := write_all_records_ok (pre ++ claimedRecord r now :: suf)
      (all_statusOk_replace pre suf _ (fun x hx => hvalid x (by simp [hx]))
        (fun x hx => hvalid x (by simp [hx])) (statusOk_claimedRecord r now))
    simp only [claim_first_todo, splitByFirstTodo_append pre r suf hpre hr,
      statusOk_claimedRecord, Bool.not_true, Bool.false_eq_true, if_false, hw, Except.map]
  · intro hnone
    simp only [claim_todo_by_id, splitById_none record_id rs hnone]
  · intro pre r suf hrs hpre hid hstat
    subst hrs
    simp only [claim_todo_by_id, splitById_append record_id pre r suf hpre hid,
      if_pos hstat]
  · intro pre r suf hrs hpre hid hstat
    subst hrs
    have hw := write_all_records_ok (pre ++ claimedRecord r now :: suf)
      (all_statusOk_replace pre suf _ (fun x hx => hvalid x (by simp [hx]))
        (fun x hx => hvalid x (by simp [hx])) (statusOk_claimedRecord r now))
    simp only [claim_todo_by_id, splitById_append record_id pre r suf hpre hid]
    rw [if_neg (by simp [hstat])]
    simp only [statusOk_claimedRecord, Bool.not_true, Bool.false_eq_true, if_false, hw,
      Except.map]

/-- A concrete record in `done` used by the witnesses. -/
def sampleDone : TaskRecord where
  id := "T-000"
  repo := "/repo"
  base := "main"
  task_file := "queue/tasks/T-000.md"
  status := "done"
  branch := "task/t-000"
  worktree_path := "/worktrees/repo/T-000"
  container := "abc123"
  port := 30000
  session_id := "s1"
  attempt := 1
  error_file := ""
  created_at := "2025-12-01T00:00:00"
  updated_at := "2025-12-02T00:00:00"

theorem claim_first_todo_and_by_id_spec_witness :
    claim_first_todo [sampleDone, sampleTodo] "2026-01-03T00:00:00"
      = .ok (some ([sampleDone, claimedRecord sampleTodo "2026-01-03T00:00:00"],
                   claimedRecord sampleTodo "2026-01-03T00:00:00")) := by
  have h := (claim_first_todo_and_by_id_spec [sampleDone, sampleTodo] "T-001"
    "2026-01-03T00:00:00" (by decide)).2.1 [sampleDone] sampleTodo [] rfl
    (by decide) rfl
  exact h.trans rfl

theorem write_all_records_ok_inv {X Y : List TaskRecord}
    (h : write_all_records X = .ok Y) : Y = X := by
  unfold write_all_records at h
  cases hf : X.find? (fun r => !statusOk r) with
  | some r => rw [hf] at h; cases h
  | none => rw [hf] at h; cases h; rfl

/-- A record carrying a stale `updated_at`, passed to `add_record` in the
counterexample. -/
def staleRecord : TaskRecord where
  id := "T-009"
  repo := "/repo"
  base := "main"
  task_file := "queue/tasks/T-009.md"
  status := "todo"
  branch := "task/t-009"
  worktree_path := "/worktrees/repo/T-009"
  container := ""
  port := 0
  session_id := ""
  attempt := 0
  error_file := ""
  created_at := "2020-01-01T00:00:00"
  updated_at := "2020-01-01T00:00:00"

/-- C4 counterexample: a successful `add_record` performed at current time
`2026-10-12T12:00:00` persists the caller's record verbatim, so the
persisted `updated_at` is the stale `2020-01-01T00:00:00`, not the current
time — `add_record` never refreshes `updated_at`. -/
theorem add_record_does_not_refresh_updated_at :
    add_record [] staleRecord = .ok [staleRecord] ∧
    staleRecord.updated_at = "2020-01-01T00:00:00" ∧
    staleRecord.updated_at ≠ "2026-10-12T12:00:00" := by
  exact ⟨rfl, rfl, by decide⟩

theorem except_map_pair_snd {X : Except StoreError (List TaskRecord)}
    {u r' : TaskRecord} {rs' : List TaskRecord}
    (h : X.map (fun y => (y, u)) = .ok (rs', r')) : r' = u := by
  cases X with
  | error e => cases h
  | ok y =>
    simp only [Except.map, Except.ok.injEq, Prod.mk.injEq] at h
    exact h.2.symm

theorem except_map_some_pair_snd {X : Except StoreError (List TaskRecord)}
    {u r' : TaskRecord} {rs' : List TaskRecord}
    (h : X.map (fun y => some (y, u)) = .ok (some (rs', r'))) : r' = u := by
  cases X with
  | error e => cases h
  | ok y =>
    simp only [Except.map, Except.ok.injEq, Option.some.injEq, Prod.mk.injEq] at h
    exact h.2.symm

/-- C4 (amended): the state-changing writes that construct the stored
record — `update_record`, `claim_first_todo`, `claim_todo_by_id` — set the
written record's `updated_at` to the current time; `add_record` instead
persists the caller's record verbatim (callers stamp the timestamps when
constructing the record), so a successful add does not refresh
`updated_at`. -/
theorem successful_writes_refresh_updated_at
    (rs rs' : List TaskRecord) (record_id now : String) (p : RecordPatch)
    (r' record : TaskRecord) :
    (update_record rs record_id p now = .ok (rs', r') → r'.updated_at = now) ∧
    (claim_first_todo rs now = .ok (some (rs', r')) → r'.updated_at = now) ∧
    (claim_todo_by_id rs record_id now = .ok (some (rs', r')) → r'.updated_at = now) ∧
    (add_record rs record = .ok rs' → rs' = rs ++ [record]) := by
  refine ⟨?_, ?_, ?_, ?_⟩
  · intro h
    unfold update_record at h
    split at h
    · cases h
    · split at h
      · split at h
        · cases h
        · dsimp only at h
          split at h
          · cases h
          · have he := except_map_pair_snd h
            rw [he]
      · dsimp only at h
        split at h
        · cases h
        · have he := except_map_pair_snd h
          rw [he]
  · intro h
    unfold claim_first_todo at h
    split at h
    · cases h
    · dsimp only at h
      split at h
      · cases h
      · have he := except_map_some_pair_snd h
        rw [he]; rfl
  · intro h
    unfold claim_todo_by_id at h
    split at h
    · cases h
    · split at h
      · cases h
      · dsimp only at h
        split at h
        · cases h
        · have he := except_map_some_pair_snd h
          rw [he]; rfl
  · intro h
    unfold add_record at h
    split at h
    · cases h
    · split at h
      · cases h
      · exact write_all_records_ok_inv h

theorem successful_writes_refresh_updated_at_witness :
    (claimedRecord sampleTodo "2026-01-03T00:00:00").updated_at = "2026-01-03T00:00:00" := by
  have h := (successful_writes_refresh_updated_at [sampleDone, sampleTodo]
    [sampleDone, claimedRecord sampleTodo "2026-01-03T00:00:00"] "T-001"
    "2026-01-03T00:00:00" {} (claimedRecord sampleTodo "2026-01-03T00:00:00")
    sampleTodo).2.1
  exact h rfl

/-- The field-clearing patch of `_cleanup_task_artifacts`
(`orchestration/cli/cmd_cleanup.py`): no `status` key. -/
def cleanupPatch : RecordPatch where
  branch := some ""
  worktree_path := some ""
  container := some ""
  port := some 0
  session_id := some ""
  error_file := some ""
  opencode_attempt_dir := some ""
  opencode_config_dir := some ""
  opencode_data_dir := some ""

/-- C10: `update_record` never rejects a patch that omits `status` or whose
`status` equals the current one, whatever the current status — including
the terminal `done` and `cancelled` — so terminal records stay mutable in
their non-status fields; in particular the cleanup patch applied to any
stored record succeeds, clears `branch`, `worktree_path`, `container`,
`port`, `session_id`, `error_file` and the `opencode_*` fields, and keeps
the status. -/
theorem terminal_states_remain_mutable
    (pre : List TaskRecord) (r : TaskRecord) (suf : List TaskRecord)
    (record_id now : String)
    (hpre : ∀ x ∈ pre, x.id ≠ record_id) (hid : r.id = record_id)
    (hvalid : ∀ x ∈ pre ++ r :: suf, statusOk x) :
    (∀ p : RecordPatch, p.status = none ∨ p.status = some r.status →
      update_record (pre ++ r :: suf) record_id p now
        = .ok (pre ++ { applyPatch r p with updated_at := now } :: suf,
               { applyPatch r p with updated_at := now })) ∧
    (update_record (pre ++ r :: suf) record_id cleanupPatch now
       = .ok (pre ++ { applyPatch r cleanupPatch with updated_at := now } :: suf,
              { applyPatch r cleanupPatch with updated_at := now }) ∧
     (applyPatch r cleanupPatch).branch = "" ∧
     (applyPatch r cleanupPatch).worktree_path = "" ∧
     (applyPatch r cleanupPatch).container = "" ∧
     (applyPatch r cleanupPatch).port = 0 ∧
     (applyPatch r cleanupPatch).session_id = "" ∧
     (applyPatch r cleanupPatch).error_file = "" ∧
     (applyPatch r cleanupPatch).opencode_attempt_dir = "" ∧
     (applyPatch r cleanupPatch).opencode_config_dir = "" ∧
     (applyPatch r cleanupPatch).opencode_data_dir = "" ∧
     (applyPatch r cleanupPatch).status = r.status) := by
  have hsplit := splitById_append record_id pre r suf hpre hid
  have hmain : ∀ p : RecordPatch, p.status = none ∨ p.status = some r.status →
      update_record (pre ++ r :: suf) record_id p now
        = .ok (pre ++ { applyPatch r p with updated_at := now } :: suf,
               { applyPatch r p with updated_at := now }) := by
    intro p hps
    have hstat : (applyPatch r p).status = r.status := by
      rcases hps with hps | hps <;> simp [applyPatch, hps]
    have hr : statusOk r = true := hvalid r (by simp)
    have hok : statusOk { applyPatch r p with updated_at := now } = true := by
      show VALID_STATUSES.contains (applyPatch r p).status = true
      rw [hstat]; exact hr
    have hw := write_all_records_ok (pre ++ { applyPatch r p with updated_at := now } :: suf)
      (all_statusOk_replace pre suf _ (fun x hx => hvalid x (by simp [hx]))
        (fun x hx => hvalid x (by simp [hx])) hok)
    rcases hps with hps | hps
    · simp only [update_record, hsplit, hps]
      simp only [hok, Bool.not_true, Bool.false_eq_true, if_false, hw, Except.map]
    · simp only [update_record, hsplit, hps]
      rw [if_neg (by simp)]
      simp only [hok, Bool.not_true, Bool.false_eq_true, if_false, hw, Except.map]
  refine ⟨hmain, hmain cleanupPatch (Or.inl rfl), ?_, ?_, ?_, ?_, ?_, ?_, ?_, ?_, ?_, ?_⟩ <;>
    simp [applyPatch, cleanupPatch]

theorem terminal_states_remain_mutable_witness :
    update_record [sampleDone] "T-000" cleanupPatch "2026-01-04T00:00:00"
      = .ok ([{ applyPatch sampleDone cleanupPatch with updated_at := "2026-01-04T00:00:00" }],
             { applyPatch sampleDone cleanupPatch with updated_at := "2026-01-04T00:00:00" }) ∧
    (applyPatch sampleDone cleanupPatch).status = "done" := by
  have h := terminal_states_remain_mutable [] sampleDone [] "T-000" "2026-01-04T00:00:00"
    (by simp) rfl (by decide)
  exact ⟨h.2.1, h.2.2.2.2.2.2.2.2.2.2.2.trans rfl⟩

/-! ## Retry (`orchestration/cli/cmd_transitions.py`) -/

/-- The patch `cmd_retry` sends to the store: transition to `todo`, keep
`worktree_path`, keep `branch` unless it is empty (Python `or` falls back
to the derived default), clear the runtime handles and the `opencode_*`
pointers, increment `attempt`. -/
def retryPatch (r : TaskRecord) (task_id : String) : RecordPatch where
  status := some "todo"
  branch := some (if r.branch = "" then derive_branch_name task_id else r.branch)
  worktree_path := some r.worktree_path
  container := some ""
  port := some 0
  session_id := some ""
  error_file := some ""
  opencode_attempt_dir := some ""
  opencode_config_dir := some ""
  opencode_data_dir := some ""
  attempt := some (r.attempt + 1)

/-- Source `cmd_retry`: exit code and resulting record-file contents. Missing
record, wrong status, or a store error exits 1 and leaves the file as is. -/
def cmd_retry (rs : List TaskRecord) (task_id now : String) : Int × List TaskRecord :=
  match get_record rs task_id with
  | none => (1, rs)
  | some r =>
    if r.status ≠ "failed" then (1, rs)
    else
      match update_record rs task_id (retryPatch r task_id) now with
      | .ok x => (0, x.1)
      | .error _ => (1, rs)

/-- A failed record whose `branch` is empty, for the C7 counterexample. -/
def failedNoBranch : TaskRecord where
  id := "T-002"
  repo := "/repo"
  base := "main"
  task_file := "queue/tasks/T-002.md"
  status := "failed"
  branch := ""
  worktree_path := "/worktrees/repo/T-002"
  container := "deadbeef"
  port := 30001
  session_id := "s2"
  attempt := 2
  error_file := "queue/errors/T-002-123.md"
  created_at := "2025-12-01T00:00:00"
  updated_at := "2025-12-03T00:00:00"

/-- C7 counterexample: retrying a failed record whose stored `branch` is
empty does not preserve the branch field — `cmd_retry` replaces it with
the derived default `task/t-002`. -/
theorem cmd_retry_empty_branch_not_preserved :
    failedNoBranch.status = "failed" ∧ failedNoBranch.branch = "" ∧
    cmd_retry [failedNoBranch] "T-002" "2026-01-05T00:00:00"
      = (0, [{ applyPatch failedNoBranch (retryPatch failedNoBranch "T-002") with
               updated_at := "2026-01-05T00:00:00" }]) ∧
    ({ applyPatch failedNoBranch (retryPatch failedNoBranch "T-002") with
       updated_at := "2026-01-05T00:00:00" } : TaskRecord).branch = "task/t-002" := by
  exact ⟨rfl, rfl, rfl, rfl⟩

/-- C7 (amended): for every stored record in `failed`, `cmd_retry`
transitions it to `todo`, strictly increments `attempt`, clears
`container`, `port`, `session_id`, `error_file` and all `opencode_*`
fields, preserves `worktree_path`, and preserves `branch` whenever it is
non-empty (an empty branch is replaced by the derived default branch
name). -/
theorem cmd_retry_spec
    (pre : List TaskRecord) (r : TaskRecord) (suf : List TaskRecord)
    (task_id now : String)
    (hpre : ∀ x ∈ pre, x.id ≠ task_id) (hid : r.id = task_id)
    (hvalid : ∀ x ∈ pre ++ r :: suf, statusOk x)
    (hfailed : r.status = "failed") :
    cmd_retry (pre ++ r :: suf) task_id now
      = (0, pre ++ { applyPatch r (retryPatch r task_id) with updated_at := now } :: suf) ∧
    ({ applyPatch r (retryPatch r task_id) with updated_at := now }
        : TaskRecord).status = "todo" ∧
    ({ applyPatch r (retryPatch r task_id) with updated_at := now }
        : TaskRecord).attempt = r.attempt + 1 ∧
    ({ applyPatch r (retryPatch r task_id) with updated_at := now }
        : TaskRecord).container = "" ∧
    ({ applyPatch r (retryPatch r task_id) with updated_at := now }
        : TaskRecord).port = 0 ∧
    ({ applyPatch r (retryPatch r task_id) with updated_at := now }
        : TaskRecord).session_id = "" ∧
    ({ applyPatch r (retryPatch r task_id) with updated_at := now }
        : TaskRecord).error_file = "" ∧
    ({ applyPatch r (retryPatch r task_id) with updated_at := now }
        : TaskRecord).opencode_attempt_dir = "" ∧
    ({ applyPatch r (retryPatch r task_id) with updated_at := now }
        : TaskRecord).opencode_config_dir = "" ∧
    ({ applyPatch r (retryPatch r task_id) with updated_at := now }
        : TaskRecord).opencode_data_dir = "" ∧
    ({ applyPatch r (retryPatch r task_id) with updated_at := now }
        : TaskRecord).worktree_path = r.worktree_path ∧
    (r.branch ≠ "" →
      ({ applyPatch r (retryPatch r task_id) with updated_at := now }
          : TaskRecord).branch = r.branch) := by
  have hsplit := splitById_append task_id pre r suf hpre hid
  have hupd := update_record_ok_of_valid pre r suf task_id
    (retryPatch r task_id) now "todo" hpre hid hvalid rfl
    (by rw [hfailed]; decide) (by decide)
  refine ⟨?_, rfl, ?_, rfl, rfl, rfl, rfl, rfl, rfl, rfl, ?_, ?_⟩
  · simp only [cmd_retry, get_record, hsplit, Option.map]
    rw [if_neg (by simp [hfailed])]
    rw [hupd]
  · simp [applyPatch, retryPatch]
  · simp [applyPatch, retryPatch]
  · intro hb
    simp [applyPatch, retryPatch, hb]

/-- A failed record with a non-empty branch, for the C7 witness. -/
def failedWithBranch : TaskRecord where
  id := "T-003"
  repo := "/repo"
  base := "main"
  task_file := "queue/tasks/T-003.md"
  status := "failed"
  branch := "task/custom"
  worktree_path := "/worktrees/repo/T-003"
  container := "cafebabe"
  port := 30002
  session_id := "s3"
  attempt := 0
  error_file := "queue/errors/T-003-456.md"
  created_at := "2025-12-01T00:00:00"
  updated_at := "2025-12-04T00:00:00"

theorem cmd_retry_spec_witness :
    cmd_retry [failedWithBranch] "T-003" "2026-01-06T00:00:00"
      = (0, [{ applyPatch failedWithBranch (retryPatch failedWithBranch "T-003") with
               updated_at := "2026-01-06T00:00:00" }]) ∧
    ({ applyPatch failedWithBranch (retryPatch failedWithBranch "T-003") with
       updated_at := "2026-01-06T00:00:00" } : TaskRecord).branch = "task/custom" := by
  have h := cmd_retry_spec [] failedWithBranch [] "T-003" "2026-01-06T00:00:00"
    (by simp) rfl (by decide) rfl
  exact ⟨h.1, h.2.2.2.2.2.2.2.2.2.2.2 (by decide)⟩

/-! ## Record-line decoding (`TaskRecord.from_dict`, `to_dict`)

A JSONL line is the parsed key/value map. `from_dict` is `cls(**data)` on
the fixed dataclass: a key outside the schema raises `TypeError`, a missing
required key raises `TypeError`, and on success the record holds exactly
the schema fields (the three `opencode_*` fields defaulting to the empty
string). `to_dict` re-emits exactly the schema fields, so the successful
round trip is the `.ok` payload itself. -/

/-- A parsed JSON scalar stored in a record line. -/
inductive JsonVal where
  | str (s : String)
  | int (n : Int)
  | bool (b : Bool)
deriving DecidableEq, Repr

/-- The 17 dataclass fields of `TaskRecord`, in declaration order. -/
def knownFields : List String :=
  ["id", "repo", "base", "task_file", "status", "branch", "worktree_path",
   "container", "port", "session_id", "attempt", "error_file",
   "created_at", "updated_at",
   "opencode_attempt_dir", "opencode_config_dir", "opencode_data_dir"]

/-- The 14 fields without a dataclass default. -/
def requiredFields : List String :=
  ["id", "repo", "base", "task_file", "status", "branch", "worktree_path",
   "container", "port", "session_id", "attempt", "error_file",
   "created_at", "updated_at"]

/-- First value stored under key `k`. -/
def lookupKey (kvs : List (String × JsonVal)) (k : String) : Option JsonVal :=
  (kvs.find? (fun kv => kv.1 = k)).map Prod.snd

/-- Source `TaskRecord.from_dict` = `cls(**data)`: reject unknown keywords, reject
missing required keywords, otherwise build the record; `to_dict` of the
result is the returned field list. -/
def from_dict (kvs : List (String × JsonVal)) :
    Except String (List (String × JsonVal)) :=
  if kvs.all (fun kv => knownFields.contains kv.1) then
    if requiredFields.all (fun k => kvs.any (fun kv => kv.1 = k)) then
      .ok (knownFields.map (fun k => (k, (lookupKey kvs k).getD (.str ""))))
    else .error "TypeError: missing required argument"
  else .error "TypeError: unexpected keyword argument"

/-- A record line carrying every schema field plus one extra pair, as a
forward-compatibility probe. -/
def lineWithExtra : List (String × JsonVal) :=
  [("id", .str "T-001"), ("repo", .str "/repo"), ("base", .str "main"),
   ("task_file", .str "queue/tasks/T-001.md"), ("status", .str "todo"),
   ("branch", .str "task/t-001"), ("worktree_path", .str "/worktrees/repo/T-001"),
   ("container", .str ""), ("port", .int 0), ("session_id", .str ""),
   ("attempt", .int 0), ("error_file", .str ""),
   ("created_at", .str "2026-01-01T00:00:00"),
   ("updated_at", .str "2026-01-01T00:00:00"),
   ("opencode_attempt_dir", .str ""), ("opencode_config_dir", .str ""),
   ("opencode_data_dir", .str ""),
   ("opencode_strict_dir", .str "/extra")]

/-- C3 counterexample: a record line with one key beyond the known schema
is not preserved across read-then-write — `from_dict` (i.e. `cls(**data)`)
raises `TypeError` on the unexpected keyword, so the read fails and
nothing, in particular not the extra pair, is re-emitted. -/
theorem unknown_field_read_raises :
    from_dict lineWithExtra = .error "TypeError: unexpected keyword argument" := rfl

/-- C3 (amended): unknown fields on read are not preserved: any record
line containing a key outside the known schema fails record construction
with a `TypeError`, and any successful read yields a record whose
re-emitted field set is exactly the known schema — extra pairs can never
round-trip. -/
theorem from_dict_schema_only
    (kvs fs : List (String × JsonVal)) (k : String) :
    (k ∈ kvs.map Prod.fst → knownFields.contains k = false →
      from_dict kvs = .error "TypeError: unexpected keyword argument") ∧
    (from_dict kvs = .ok fs → fs.map Prod.fst = knownFields) := by
  constructor
  · intro hk hunk
    obtain ⟨kv, hkv, hfst⟩ := List.mem_map.mp hk
    have hall : kvs.all (fun kv => knownFields.contains kv.1) = false := by
      rw [List.all_eq_false]
      refine ⟨kv, hkv, ?_⟩
      rw [hfst, hunk]
      simp
    simp only [from_dict, hall, Bool.false_eq_true, if_false]
  · intro h
    unfold from_dict at h
    split at h
    · split at h
      · cases h
        rw [List.map_map]
        exact List.map_id knownFields
      · cases h
    · cases h

theorem from_dict_schema_only_witness :
    from_dict lineWithExtra = .error "TypeError: unexpected keyword argument" ∧
    (knownFields.map
      (fun k => (k, (lookupKey (lineWithExtra.take 17) k).getD (.str "")))).map Prod.fst
      = knownFields := by
  constructor
  · exact (from_dict_schema_only lineWithExtra [] "opencode_strict_dir").1
      (by decide) (by decide)
  · exact (from_dict_schema_only (lineWithExtra.take 17)
      (knownFields.map (fun k => (k, (lookupKey (lineWithExtra.take 17) k).getD (.str ""))))
      "").2 rfl

/-! ## Agent adapter (`orchestration/adapters/opencode.py`) -/

theorem dropWhileChar_length_le (p : Char → Bool) (l : List Char) :
    (dropWhileChar p l).length ≤ l.length := by
  induction l with
  | nil => simp [dropWhileChar]
  | cons c cs ih =>
    unfold dropWhileChar
    split
    · exact Nat.le_succ_of_le ih
    · simp

/-- Parameter bytes of a CSI sequence (`[0-?]` in the ANSI regex). -/
def ansiParam (c : Char) : Bool := 0x30 ≤ c.toNat && c.toNat ≤ 0x3F

/-- Intermediate bytes (0x20 to 0x2F). -/
def ansiInter (c : Char) : Bool := 0x20 ≤ c.toNat && c.toNat ≤ 0x2F

/-- Final bytes (0x40 to 0x7E). -/
def ansiFinal (c : Char) : Bool := 0x40 ≤ c.toNat && c.toNat ≤ 0x7E

/-- Attempt to match the CSI body (a bracket, then parameter bytes, then
intermediate bytes, then one final byte) at the head of `cs`, the text
after an escape byte; returns the remainder after the match. The three
character classes are disjoint, so the greedy scan is exactly the regex
match of `ANSI_ESCAPE_RE`. -/
def ansiMatch : List Char → Option (List Char)
  | '[' :: rest =>
    match dropWhileChar ansiInter (dropWhileChar ansiParam rest) with
    | f :: tail => if ansiFinal f then some tail else none
    | [] => none
  | _ => none

theorem ansiMatch_length_lt {cs tail : List Char} (h : ansiMatch cs = some tail) :
    tail.length < cs.length := by
  unfold ansiMatch at h
  split at h
  · rename_i rest
    split at h
    · rename_i f t heq
      split at h
      · cases h
        have h1 := dropWhileChar_length_le ansiInter (dropWhileChar ansiParam rest)
        have h2 := dropWhileChar_length_le ansiParam rest
        rw [heq] at h1
        simp only [List.length_cons] at h1 ⊢
        omega
      · cases h
    · cases h
  · cases h

/-- Structural worker for `stripAnsi`; the fuel dominates the list length,
and every step strictly shrinks the list, so the fuel never runs out on
the initial call. -/
def stripAnsiFuel : Nat → List Char → List Char
  | 0, _ => []
  | _ + 1, [] => []
  | fuel + 1, c :: cs =>
    if c = '\x1B' then
      match ansiMatch cs with
      | some tail => stripAnsiFuel fuel tail
      | none => c :: stripAnsiFuel fuel cs
    else c :: stripAnsiFuel fuel cs

/-- Source `ANSI_ESCAPE_RE.sub("", s)`: remove every CSI escape sequence, leaving
unmatched escape bytes in place. -/
def stripAnsi (l : List Char) : List Char := stripAnsiFuel l.length l

/-- The normalisation `__stderr_has_failure` applies before marker search:
strip ANSI escapes, strip surrounding whitespace, lowercase. -/
def normalizeStderr (stderr : String) : String :=
  lowerStr (stripWs (String.mk (stripAnsi stderr.data)))

/-- The failure markers of `__stderr_has_failure`. -/
def failureMarkers : List String :=
  ["error:", "failed to change directory", "unknown command", "not found",
   "unrecognized"]

/-- Source `__stderr_has_failure`. -/
def stderr_has_failure (stderr : String) : Bool :=
  if stderr = "" then false
  else
    let normalized := normalizeStderr stderr
    if normalized = "" then false
    else failureMarkers.any (fun m => containsSub normalized m)

/-- The structured payload shared by `PlanError` and `BuildError`. -/
structure PhaseError where
  stage : String
  exit_code : Int
  stdout : String
  stderr : String
  endpoint : String
deriving DecidableEq, Repr

/-- Result handling of `run_make_plan` on a finished subprocess: non-zero
exit, or the stderr heuristic firing, raises `PlanError` (with exit code
`-1` standing in when the process exited 0); otherwise the captured output
is returned. -/
def run_make_plan_outcome (returncode : Int) (stdout stderr endpoint : String) :
    Except PhaseError (String × String) :=
  if returncode ≠ 0 ∨ stderr_has_failure stderr then
    .error { stage := "planning",
             exit_code := if returncode ≠ 0 then returncode else -1,
             stdout := stdout, stderr := stderr, endpoint := endpoint }
  else .ok (stdout, stderr)

/-- Result handling of `run_execute_plan`, the same shape with stage
`building` (`BuildError`). -/
def run_execute_plan_outcome (returncode : Int) (stdout stderr endpoint : String) :
    Except PhaseError (String × String) :=
  if returncode ≠ 0 ∨ stderr_has_failure stderr then
    .error { stage := "building",
             exit_code := if returncode ≠ 0 then returncode else -1,
             stdout := stdout, stderr := stderr, endpoint := endpoint }
  else .ok (stdout, stderr)

/-- C6: a non-zero exit is a phase failure carrying exit code, stdout,
stderr and endpoint; a zero exit is a failure exactly when the stderr,
after ANSI-stripping, whitespace-stripping and lowercasing, contains one
of the markers `error:`, `failed to change directory`, `unknown command`,
`not found`, `unrecognized`; a zero exit with empty stderr is a success;
in particular stderr `ERROR: boom` with exit 0 fails and empty stderr
with exit 0 succeeds. -/
theorem stderr_failure_heuristic (rc : Int) (out err ep : String) :
    (stderr_has_failure err
      = failureMarkers.any (fun m => containsSub (normalizeStderr err) m)) ∧
    (rc ≠ 0 →
      run_make_plan_outcome rc out err ep
        = .error { stage := "planning", exit_code := rc, stdout := out,
                   stderr := err, endpoint := ep } ∧
      run_execute_plan_outcome rc out err ep
        = .error { stage := "building", exit_code := rc, stdout := out,
                   stderr := err, endpoint := ep }) ∧
    (rc = 0 → stderr_has_failure err = true →
      run_make_plan_outcome rc out err ep
        = .error { stage := "planning", exit_code := -1, stdout := out,
                   stderr := err, endpoint := ep } ∧
      run_execute_plan_outcome rc out err ep
        = .error { stage := "building", exit_code := -1, stdout := out,
                   stderr := err, endpoint := ep }) ∧
    (rc = 0 → stderr_has_failure err = false →
      run_make_plan_outcome rc out err ep = .ok (out, err) ∧
      run_execute_plan_outcome rc out err ep = .ok (out, err)) ∧
    stderr_has_failure "ERROR: boom" = true ∧
    stderr_has_failure "" = false := by
  refine ⟨?_, ?_, ?_, ?_, by decide, rfl⟩
  · unfold stderr_has_failure
    by_cases h0 : err = ""
    · subst h0
      decide
    · rw [if_neg h0]
      dsimp only
      by_cases hn : normalizeStderr err = ""
      · rw [if_pos hn, hn]
        decide
      · rw [if_neg hn]
  · intro hrc
    simp only [run_make_plan_outcome, run_execute_plan_outcome,
      if_pos (Or.inl hrc), if_pos hrc]
    exact ⟨trivial, trivial⟩
  · intro hrc hf
    subst hrc
    unfold run_make_plan_outcome run_execute_plan_outcome
    rw [if_pos (Or.inr hf), if_pos (Or.inr hf)]
    norm_num
  · intro hrc hf
    subst hrc
    unfold run_make_plan_outcome run_execute_plan_outcome
    rw [if_neg (by simp [hf]), if_neg (by simp [hf])]
    exact ⟨rfl, rfl⟩

theorem stderr_failure_heuristic_witness :
    run_make_plan_outcome 0 "plan output" "ERROR: boom" "http://127.0.0.1:30000"
      = .error { stage := "planning", exit_code := -1, stdout := "plan output",
                 stderr := "ERROR: boom", endpoint := "http://127.0.0.1:30000" } ∧
    run_make_plan_outcome 0 "plan output" "" "http://127.0.0.1:30000"
      = .ok ("plan output", "") := by
  constructor
  · exact ((stderr_failure_heuristic 0 "plan output" "ERROR: boom"
      "http://127.0.0.1:30000").2.2.1 rfl (by decide)).1
  · exact ((stderr_failure_heuristic 0 "plan output" ""
      "http://127.0.0.1:30000").2.2.2.1 rfl rfl).1

/-! ## Container launch (`orchestration/runtime_docker.py`) -/

/-- Python dict assignment on an insertion-ordered association list:
replace the value in place when the key exists, else append. -/
def assocSet (ms : List (String × String)) (k v : String) : List (String × String) :=
  match ms with
  | [] => [(k, v)]
  | (k', v') :: rest =>
    if k' = k then (k, v) :: rest else (k', v') :: assocSet rest k v

/-- Source `ContainerConfig` before `__post_init__` (defaults as in the
dataclass). -/
structure ContainerConfig where
  task_id : String
  image : String
  worktree_path : String
  port : Int
  name : String := ""
  mounts : List (String × String) := []
  writable_mount_paths : List String := []
  env_vars : List (String × String) := []
  working_dir : Option String := none
  entrypoint : Option String := none
  cmd : Option (List String) := none
deriving DecidableEq, Repr

/-- Source `ContainerConfig.__post_init__`: default name `task-<id>`, then always
mount the worktree at path parity (when non-empty) and mark the worktree
path writable (appending when absent). -/
def postInit (c : ContainerConfig) : ContainerConfig :=
  { c with
    name := if c.name = "" then "task-" ++ c.task_id else c.name
    mounts := if c.worktree_path ≠ "" then assocSet c.mounts c.worktree_path c.worktree_path
              else c.mounts
    writable_mount_paths :=
      if c.writable_mount_paths.contains c.worktree_path then c.writable_mount_paths
      else c.writable_mount_paths ++ [c.worktree_path] }

/-- The volume argument `launch_container` emits for one mount: writable
targets as `host:container`, everything else with the `:ro` marker. -/
def mountArg (writable : List String) (m : String × String) : String :=
  if writable.contains m.2 then m.1 ++ ":" ++ m.2
  else m.1 ++ ":" ++ m.2 ++ ":ro"

/-- The `-v` argument pairs for all mounts, in dict order. -/
def mountArgs (writable : List String) : List (String × String) → List String
  | [] => []
  | m :: ms => "-v" :: mountArg writable m :: mountArgs writable ms

/-- The `-e` environment arguments. -/
def envArgs : List (String × String) → List String
  | [] => []
  | (k, v) :: rest => "-e" :: (k ++ "=" ++ v) :: envArgs rest

/-- The full `docker run` command `launch_container` builds from a
post-init config. -/
def buildRunCmd (c : ContainerConfig) : List String :=
  ["docker", "run", "-d", "--name", c.name,
   "-p", "127.0.0.1:" ++ toString c.port ++ ":8000"]
  ++ mountArgs c.writable_mount_paths c.mounts
  ++ envArgs c.env_vars
  ++ (match c.working_dir with | some w => ["-w", w] | none => [])
  ++ (match c.entrypoint with | some e => ["--entrypoint", e] | none => [])
  ++ [c.image]
  ++ c.cmd.getD []

/-- The command actually launched: `__post_init__` runs at construction,
then `launch_container` renders the command. -/
def launchCmd (c : ContainerConfig) : List String := buildRunCmd (postInit c)

theorem assocSet_mem_self (ms : List (String × String)) (k v : String) :
    (k, v) ∈ assocSet ms k v := by
  induction ms with
  | nil => simp [assocSet]
  | cons m rest ih =>
    obtain ⟨k', v'⟩ := m
    unfold assocSet
    split
    · simp
    · simp [ih]

theorem mountArgs_mem (writable : List String) (ms : List (String × String))
    (m : String × String) (hm : m ∈ ms) :
    mountArg writable m ∈ mountArgs writable ms := by
  induction ms with
  | nil => cases hm
  | cons x rest ih =>
    rcases List.mem_cons.mp hm with h | h
    · subst h; simp [mountArgs]
    · simp [mountArgs, ih h]

theorem mem_launchCmd_of_mem_mounts (c : ContainerConfig) (m : String × String)
    (hm : m ∈ (postInit c).mounts) :
    mountArg (postInit c).writable_mount_paths m ∈ launchCmd c := by
  unfold launchCmd buildRunCmd
  have h := mountArgs_mem (postInit c).writable_mount_paths (postInit c).mounts m hm
  simp only [List.append_assoc, List.mem_append]
  exact Or.inr (Or.inl h)

/-- C8: in the built docker command, every mount whose container path is
not in the writable set appears with the `:ro` marker; every mount whose
container path is in the writable set appears without it; and a non-empty
worktree is always added as a mount at the same absolute container path as
its host path, is always in the writable set, and appears in the command
without the marker. -/
theorem mount_modes (c : ContainerConfig) :
    (∀ m ∈ (postInit c).mounts, ¬ (postInit c).writable_mount_paths.contains m.2 →
       mountArg (postInit c).writable_mount_paths m = m.1 ++ ":" ++ m.2 ++ ":ro" ∧
       (m.1 ++ ":" ++ m.2 ++ ":ro") ∈ launchCmd c) ∧
    (∀ m ∈ (postInit c).mounts, (postInit c).writable_mount_paths.contains m.2 →
       mountArg (postInit c).writable_mount_paths m = m.1 ++ ":" ++ m.2 ∧
       (m.1 ++ ":" ++ m.2) ∈ launchCmd c) ∧
    (c.worktree_path ≠ "" →
       (c.worktree_path, c.worktree_path) ∈ (postInit c).mounts ∧
       (postInit c).writable_mount_paths.contains c.worktree_path = true ∧
       (c.worktree_path ++ ":" ++ c.worktree_path) ∈ launchCmd c) := by
  have hwrit : (postInit c).writable_mount_paths.contains c.worktree_path = true := by
    simp only [postInit]
    split
    · assumption
    · simp
  refine ⟨?_, ?_, ?_⟩
  · intro m hm hnw
    have ha : mountArg (postInit c).writable_mount_paths m = m.1 ++ ":" ++ m.2 ++ ":ro" := by
      unfold mountArg
      rw [if_neg hnw]
    exact ⟨ha, ha ▸ mem_launchCmd_of_mem_mounts c m hm⟩
  · intro m hm hw
    have ha : mountArg (postInit c).writable_mount_paths m = m.1 ++ ":" ++ m.2 := by
      unfold mountArg
      rw [if_pos hw]
    exact ⟨ha, ha ▸ mem_launchCmd_of_mem_mounts c m hm⟩
  · intro hne
    have hmem : (c.worktree_path, c.worktree_path) ∈ (postInit c).mounts := by
      simp only [postInit, if_pos hne]
      exact assocSet_mem_self c.mounts c.worktree_path c.worktree_path
    refine ⟨hmem, hwrit, ?_⟩
    have ha : mountArg (postInit c).writable_mount_paths (c.worktree_path, c.worktree_path)
        = c.worktree_path ++ ":" ++ c.worktree_path := by
      unfold mountArg
      rw [if_pos hwrit]
    exact ha ▸ mem_launchCmd_of_mem_mounts c (c.worktree_path, c.worktree_path) hmem

/-- A concrete launch configuration: a read-only config mount, a writable
data mount, and the worktree. -/
def sampleConfig : ContainerConfig where
  task_id := "T-001"
  image := "sisifo-runtime"
  worktree_path := "/worktrees/repo/T-001"
  port := 30000
  mounts := [("/queue/opencode/T-001/attempt-1/config", "/root/.config/opencode"),
             ("/queue/opencode/T-001/attempt-1/data", "/root/.local/share/opencode")]
  writable_mount_paths := ["/root/.local/share/opencode"]

theorem mount_modes_witness :
    ("/queue/opencode/T-001/attempt-1/config:/root/.config/opencode:ro"
      ∈ launchCmd sampleConfig) ∧
    ("/queue/opencode/T-001/attempt-1/data:/root/.local/share/opencode"
      ∈ launchCmd sampleConfig) ∧
    ("/worktrees/repo/T-001:/worktrees/repo/T-001" ∈ launchCmd sampleConfig) := by
  have h := mount_modes sampleConfig
  refine ⟨?_, ?_, ?_⟩
  · exact (h.1 ("/queue/opencode/T-001/attempt-1/config", "/root/.config/opencode")
      (by decide) (by decide)).2
  · exact (h.2.1 ("/queue/opencode/T-001/attempt-1/data", "/root/.local/share/opencode")
      (by decide) (by decide)).2
  · exact (h.2.2 (by decide)).2.2

/-! ## Review launcher (`orchestration/adapters/review.py`)

`launch_review_from_record` takes the record as a parsed dictionary; the
fields of interest are modelled with `none` for an absent key, and the
filesystem existence check `Path(d).expanduser().resolve().exists()` is a
`String → Bool` parameter. -/

theorem isPre_nil (l : List Char) : isPre l [] = true := by
  cases l <;> rfl

theorem isPre_append (sub l ext : List Char) (h : isPre l sub = true) :
    isPre (l ++ ext) sub = true := by
  induction sub generalizing l with
  | nil => exact isPre_nil (l ++ ext)
  | cons d ds ih =>
    cases l with
    | nil => cases h
    | cons c cs =>
      simp only [isPre, Bool.and_eq_true] at h
      simp only [List.cons_append, isPre, Bool.and_eq_true]
      exact ⟨h.1, ih cs h.2⟩

theorem containsSubList_nil (l : List Char) : containsSubList l [] = true := by
  cases l <;> rfl

theorem containsSubList_append_left (l ext sub : List Char)
    (h : containsSubList l sub = true) : containsSubList (l ++ ext) sub = true := by
  induction l with
  | nil =>
    cases sub with
    | nil => exact containsSubList_nil ext
    | cons d ds => cases h
  | cons c cs ih =>
    simp only [containsSubList, Bool.or_eq_true] at h
    rcases h with h | h
    · simp only [List.cons_append, containsSubList, Bool.or_eq_true]
      exact Or.inl (isPre_append sub (c :: cs) ext h)
    · simp only [List.cons_append, containsSubList, Bool.or_eq_true]
      exact Or.inr (ih h)

theorem containsSubList_append_right (l ext sub : List Char)
    (h : containsSubList l sub = true) : containsSubList (ext ++ l) sub = true := by
  induction ext with
  | nil => exact h
  | cons c cs ih =>
    simp only [List.cons_append, containsSubList, Bool.or_eq_true]
    exact Or.inr ih

theorem containsSub_append_left (a b sub : String) (h : containsSub a sub = true) :
    containsSub (a ++ b) sub = true :=
  containsSubList_append_left a.data b.data sub.data h

theorem containsSub_append_right (a b sub : String) (h : containsSub b sub = true) :
    containsSub (a ++ b) sub = true :=
  containsSubList_append_right b.data a.data sub.data h

/-- A typed value in the task-record dictionary. -/
inductive PyV where
  | str (s : String)
  | int (n : Int)
deriving DecidableEq, Repr

/-- The record fields `launch_review_from_record` reads; `none` models an
absent key. -/
structure ReviewRecord where
  id : Option PyV := none
  port : Option PyV := none
  opencode_config_dir : Option PyV := none
  opencode_data_dir : Option PyV := none
  worktree_path : Option PyV := none
deriving DecidableEq, Repr

/-- Python `x if isinstance(x, str) else ""` applied to an optional dict value. -/
def asStr : Option PyV → String
  | some (.str s) => s
  | _ => ""

/-- Outcome of `launch_review_from_record`: a `ReviewLaunchError`, a
`StrictLocalValidationError`, or the `launch_review` call with its
arguments. -/
inductive ReviewOutcome where
  | launchErr (task_id stderr : String)
  | strictErr (task_id message : String)
  | launched (task_id : String) (port : Int) (worktree : Option String)
      (config_dir data_dir : String)
deriving DecidableEq, Repr

/-- The remediation suffix of the missing-directory messages. -/
def remediationHint (task_id : String) : String :=
  "Try: taskq retry --id " ++ task_id ++ " && taskq run"

/-- The `StrictLocalValidationError` message for an absent sandbox-path
field. -/
def missingDirMsg (field task_id : String) : String :=
  field ++ " is missing. Task may be a legacy task or missing proper execution. "
    ++ remediationHint task_id

/-- Source `launch_review_from_record`: refuse a missing/non-string id and an
invalid port with `ReviewLaunchError`; refuse an empty sandbox-path field
with a `StrictLocalValidationError` carrying the remediation hint; refuse
a sandbox path that does not exist with a `StrictLocalValidationError`
naming the directory; otherwise call `launch_review`. -/
def launch_review_from_record (rec : ReviewRecord) (fsExists : String → Bool) :
    ReviewOutcome :=
  let task_id := asStr rec.id
  if task_id = "" then .launchErr "unknown" "Task record missing 'id' field"
  else
    match rec.port.getD (.int 0) with
    | .str s => .launchErr task_id ("Task record has invalid port: " ++ s)
    | .int p =>
      if p ≤ 0 then .launchErr task_id ("Task record has invalid port: " ++ toString p)
      else
        let config_dir := asStr rec.opencode_config_dir
        let data_dir := asStr rec.opencode_data_dir
        if config_dir = "" then .strictErr task_id (missingDirMsg "opencode_config_dir" task_id)
        else if data_dir = "" then .strictErr task_id (missingDirMsg "opencode_data_dir" task_id)
        else if ¬ fsExists config_dir then
          .strictErr task_id ("opencode_config_dir does not exist: " ++ config_dir)
        else if ¬ fsExists data_dir then
          .strictErr task_id ("opencode_data_dir does not exist: " ++ data_dir)
        else
          .launched task_id p
            (if asStr rec.worktree_path = "" then none else some (asStr rec.worktree_path))
            config_dir data_dir

/-- A review record whose config sandbox path is set but does not exist on
disk. -/
def reviewRecMissingDir : ReviewRecord where
  id := some (.str "T-001")
  port := some (.int 30001)
  opencode_config_dir := some (.str "/cfg")
  opencode_data_dir := some (.str "/data")

/-- The filesystem of the counterexample: only `/data` exists. -/
def fsOnlyData : String → Bool := fun p => p == "/data"

/-- C9 counterexample: a record whose `opencode_config_dir` does not
resolve to an existing directory is refused with a
strict-local-validation-error whose message does not reference the `retry`
command — the remediation hint is absent from the does-not-exist refusal,
contrary to the claim that every such refusal carries the hint. -/
theorem review_nonexistent_dir_message_lacks_hint :
    launch_review_from_record reviewRecMissingDir fsOnlyData
      = .strictErr "T-001" "opencode_config_dir does not exist: /cfg" ∧
    containsSub "opencode_config_dir does not exist: /cfg" "retry" = false := by
  exact ⟨rfl, by decide⟩

/-- C9 (amended): the review launcher refuses a record with a missing id or
an invalid port with a review-launch-error; it refuses an empty sandbox
path (config or data) with a strict-local-validation-error whose message
carries the remediation hint referencing the `retry` and `run` commands;
it refuses a sandbox path that does not exist on disk (an existence check
only) with a strict-local-validation-error naming the path, without the
hint; otherwise it launches the review TUI. -/
theorem review_strict_local_validation (rec : ReviewRecord) (fs : String → Bool) :
    (asStr rec.id = "" →
      launch_review_from_record rec fs
        = .launchErr "unknown" "Task record missing 'id' field") ∧
    (∀ s, asStr rec.id ≠ "" → rec.port.getD (.int 0) = .str s →
      launch_review_from_record rec fs
        = .launchErr (asStr rec.id) ("Task record has invalid port: " ++ s)) ∧
    (∀ p : Int, asStr rec.id ≠ "" → rec.port.getD (.int 0) = .int p → p ≤ 0 →
      launch_review_from_record rec fs
        = .launchErr (asStr rec.id) ("Task record has invalid port: " ++ toString p)) ∧
    (∀ p : Int, asStr rec.id ≠ "" → rec.port.getD (.int 0) = .int p → ¬ p ≤ 0 →
      asStr rec.opencode_config_dir = "" →
      launch_review_from_record rec fs
        = .strictErr (asStr rec.id) (missingDirMsg "opencode_config_dir" (asStr rec.id))) ∧
    (∀ p : Int, asStr rec.id ≠ "" → rec.port.getD (.int 0) = .int p → ¬ p ≤ 0 →
      asStr rec.opencode_config_dir ≠ "" → asStr rec.opencode_data_dir = "" →
      launch_review_from_record rec fs
        = .strictErr (asStr rec.id) (missingDirMsg "opencode_data_dir" (asStr rec.id))) ∧
    (∀ field task_id : String,
      containsSub (missingDirMsg field task_id) "retry" = true ∧
      containsSub (missingDirMsg field task_id) "run" = true) ∧
    (∀ p : Int, asStr rec.id ≠ "" → rec.port.getD (.int 0) = .int p → ¬ p ≤ 0 →
      asStr rec.opencode_config_dir ≠ "" → asStr rec.opencode_data_dir ≠ "" →
      fs (asStr rec.opencode_config_dir) = false →
      launch_review_from_record rec fs
        = .strictErr (asStr rec.id)
            ("opencode_config_dir does not exist: " ++ asStr rec.opencode_config_dir)) ∧
    (∀ p : Int, asStr rec.id ≠ "" → rec.port.getD (.int 0) = .int p → ¬ p ≤ 0 →
      asStr rec.opencode_config_dir ≠ "" → asStr rec.opencode_data_dir ≠ "" →
      fs (asStr rec.opencode_config_dir) = true →
      fs (asStr rec.opencode_data_dir) = false →
      launch_review_from_record rec fs
        = .strictErr (asStr rec.id)
            ("opencode_data_dir does not exist: " ++ asStr rec.opencode_data_dir)) ∧
    (∀ p : Int, asStr rec.id ≠ "" → rec.port.getD (.int 0) = .int p → ¬ p ≤ 0 →
      asStr rec.opencode_config_dir ≠ "" → asStr rec.opencode_data_dir ≠ "" →
      fs (asStr rec.opencode_config_dir) = true →
      fs (asStr rec.opencode_data_dir) = true →
      launch_review_from_record rec fs
        = .launched (asStr rec.id) p
            (if asStr rec.worktree_path = "" then none
             else some (asStr rec.worktree_path))
            (asStr rec.opencode_config_dir) (asStr rec.opencode_data_dir)) := by
  refine ⟨?_, ?_, ?_, ?_, ?_, ?_, ?_, ?_, ?_⟩
  · intro hid
    simp only [launch_review_from_record, if_pos hid]
  · intro s hid hport
    simp only [launch_review_from_record, if_neg hid, hport]
  · intro p hid hport hp
    simp only [launch_review_from_record, if_neg hid, hport, if_pos hp]
  · intro p hid hport hp hcfg
    simp only [launch_review_from_record, if_neg hid, hport, if_neg hp, if_pos hcfg]
  · intro p hid hport hp hcfg hdata
    simp only [launch_review_from_record, if_neg hid, hport, if_neg hp, if_neg hcfg,
      if_pos hdata]
  · intro field task_id
    constructor
    · exact containsSub_append_right _ _ "retry"
        (containsSub_append_left _ " && taskq run" "retry"
          (containsSub_append_left "Try: taskq retry --id " task_id "retry" (by decide)))
    · exact containsSub_append_right _ _ "run"
        (containsSub_append_right ("Try: taskq retry --id " ++ task_id)
          " && taskq run" "run" (by decide))
  · intro p hid hport hp hcfg hdata hfs
    simp only [launch_review_from_record, if_neg hid, hport, if_neg hp, if_neg hcfg,
      if_neg hdata, hfs]
    simp
  · intro p hid hport hp hcfg hdata hfsc hfsd
    simp only [launch_review_from_record, if_neg hid, hport, if_neg hp, if_neg hcfg,
      if_neg hdata, hfsc, hfsd]
    simp
  · intro p hid hport hp hcfg hdata hfsc hfsd
    simp only [launch_review_from_record, if_neg hid, hport, if_neg hp, if_neg hcfg,
      if_neg hdata, hfsc, hfsd]
    simp

/-- A fully valid review record, for the witness. -/
def reviewRecOk : ReviewRecord where
  id := some (.str "T-001")
  port := some (.int 30001)
  opencode_config_dir := some (.str "/cfg")
  opencode_data_dir := some (.str "/data")
  worktree_path := some (.str "/wt")

theorem review_strict_local_validation_witness :
    launch_review_from_record reviewRecOk (fun _ => true)
      = .launched "T-001" 30001 (some "/wt") "/cfg" "/data" ∧
    containsSub (missingDirMsg "opencode_config_dir" "T-001") "retry" = true ∧
    containsSub (missingDirMsg "opencode_config_dir" "T-001") "run" = true := by
  have h := review_strict_local_validation reviewRecOk (fun _ => true)
  refine ⟨?_, (h.2.2.2.2.2.1 "opencode_config_dir" "T-001").1,
    (h.2.2.2.2.2.1 "opencode_config_dir" "T-001").2⟩
  have h9 := h.2.2.2.2.2.2.2.2 30001 (by decide) rfl (by decide) (by decide)
    (by decide) rfl rfl
  exact h9.trans (by decide)
